import Mathlib

/-!
Verification of the N42 chain-configuration metadata accessors
(`modules/rawdb/accessors_metadata.go`) and of the node keystore-directory
resolution helpers (package `conf`), as a shallow embedding in Lean.

The accessors translate a 32-byte genesis hash into a storage key, serialize
or deserialize the chain-configuration record as JSON, and surface typed
failures; the conf helpers resolve the keystore directory from a node
configuration.
-/

namespace N42

/-- Byte strings (Go `[]byte`) modelled as lists of naturals. -/
abbrev Bytes := List Nat

/-- A 32-byte genesis hash (`types.Hash`, a `[32]byte`). -/
abbrev Hash := { l : List Nat // l.length = 32 }

/-- Modelled from the spec: `modules.ConfigKey` is not part of the supplied
source files; per the spec the storage key is a fixed namespacing tag
concatenated with the genesis-hash bytes ("key = fixedPrefix ||
genesisHashBytes"). These are the bytes of the ASCII string "config". -/
def configKeyTag : Bytes := [99, 111, 110, 102, 105, 103]

/-- Modelled from the spec: the storage key derived deterministically from a
genesis hash by `modules.ConfigKey`. -/
def ConfigKey (hash : Hash) : Bytes := configKeyTag ++ hash.val

/-- Modelled from the spec: `params.ChainConfig` is not part of the supplied
source files; the spec treats it as an opaque serializable record of
consensus parameters (chain identifier, fork activation heights) supporting
lossless structured encode/decode. Two numeric fields keep it a black box
with exactly that contract. -/
structure ChainConfig where
  chainID : Nat
  forkBlock : Nat
deriving DecidableEq

/-- Modelled from the spec: structured (JSON-style) encoding of a
`ChainConfig`, mirroring `json.Marshal`. The record is framed by braces
(bytes 123 and 125) with the two fields written in unary (byte 49) and
separated by a comma (byte 44). Encoding is total, as `json.Marshal` is on
this record type, and injective. -/
def marshalBytes (c : ChainConfig) : Bytes :=
  123 :: (List.replicate c.chainID 49 ++ 44 :: (List.replicate c.forkBlock 49 ++ [125]))

/-- `json.Marshal` on a `ChainConfig` record: total encoding wrapped in the
Go `([]byte, error)` result shape (the error is unreachable for this record
type, as in Go). -/
def jsonMarshal (c : ChainConfig) : Except String Bytes :=
  .ok (marshalBytes c)

/-- Parses the unary digits of the second field followed by the closing
brace. -/
def decodeTail : Bytes → Option Nat
  | [125] => some 0
  | 49 :: rest => (decodeTail rest).map (· + 1)
  | _ => none

/-- Parses the unary digits of the first field, the comma separator, and the
remainder of the record. -/
def decodeBody : Bytes → Option (Nat × Nat)
  | 44 :: rest => (decodeTail rest).map (fun b => (0, b))
  | 49 :: rest => (decodeBody rest).map (fun p => (p.1 + 1, p.2))
  | _ => none

/-- Modelled from the spec: structured decoding of a `ChainConfig`,
mirroring `json.Unmarshal`; it fails (with the parser's own error) on any
byte string that is not a valid encoding of some record. -/
def jsonUnmarshal (data : Bytes) : Except String ChainConfig :=
  match data with
  | 123 :: rest =>
    match decodeBody rest with
    | some p => .ok ⟨p.1, p.2⟩
    | none => .error "unexpected end of JSON input"
  | _ => .error "invalid character looking for beginning of value"

/-- The `modules.ChainConfig` table of the key-value store (`kv.Getter` /
`kv.RwTx` restricted to the single table the accessors use): the stored
bytes per key (`GetOne` of an absent key yields the empty byte string, as in
the kv interface), together with injected store failures for get and for
put. -/
@[ext]
structure DB where
  tbl : Bytes → Bytes
  getErr : Bytes → Option String
  putErr : Bytes → Option String

/-- Semantics of `db.GetOne(modules.ChainConfig, key)`: either the store's
access error, or the stored bytes (empty when the key is absent). -/
def GetOne (db : DB) (key : Bytes) : Except String Bytes :=
  match db.getErr key with
  | some e => .error e
  | none => .ok (db.tbl key)

/-- Semantics of `db.Put(modules.ChainConfig, key, value)`: either the
store's access error (leaving the table unchanged), or the updated store. -/
def Put (db : DB) (key : Bytes) (value : Bytes) : Except String DB :=
  match db.putErr key with
  | some e => .error e
  | none => .ok { db with tbl := fun k => if k = key then value else db.tbl k }

/-- The failure taxonomy of `ReadChainConfig`, one constructor per `return`
of an error in the source: `fetchErr` wraps a store access error ("fetch
ChainConfig from db ,error: %v"), `emptyErr` is the empty-record condition
("ChainConfig are empty"), and `decodeErr` wraps the JSON parser's error
("invalid chain config JSON err: %v"). -/
inductive ReadErr where
  | fetchErr (cause : String)
  | emptyErr
  | decodeErr (cause : String)
deriving DecidableEq

/-- The failure taxonomy of `WriteChainConfig`: `invalidCfg` is the rejected
nil configuration ("invalid cfg"), `encodeFailed` propagates a
`json.Marshal` error, and `putFailed` propagates a store `Put` error. -/
inductive WriteErr where
  | invalidCfg
  | encodeFailed (cause : String)
  | putFailed (cause : String)
deriving DecidableEq

/-- `ReadChainConfig(db, hash)` retrieves the consensus settings based on
the given genesis hash, returning the Go pair
`(*params.ChainConfig, error)`: a fetch error is wrapped; empty bytes are
reported as the empty-record error; undecodable bytes are reported as a
decode error wrapping the parser's error; otherwise the decoded config is
returned with a nil error. -/
def ReadChainConfig (db : DB) (hash : Hash) : Option ChainConfig × Option ReadErr :=
  match GetOne db (ConfigKey hash) with
  | .error e => (none, some (.fetchErr e))
  | .ok data =>
    if data.length = 0 then (none, some .emptyErr)
    else
      match jsonUnmarshal data with
      | .error e => (none, some (.decodeErr e))
      | .ok config => (some config, none)

/-- `WriteChainConfig(db, hash, cfg)` writes the chain config settings to
the database: `none` models a nil `*params.ChainConfig` and is rejected
before any store call; a `json.Marshal` failure and a store `Put` failure
are each returned to the caller. The result is the store after the call
paired with the returned error (`none` on success). -/
def WriteChainConfig (db : DB) (hash : Hash) (cfg : Option ChainConfig) :
    DB × Option WriteErr :=
  match cfg with
  | none => (db, some .invalidCfg)
  | some c =>
    match jsonMarshal c with
    | .error e => (db, some (.encodeFailed e))
    | .ok data =>
      match Put db (ConfigKey hash) data with
      | .error e => (db, some (.putFailed e))
      | .ok db2 => (db2, none)

/-- File-system paths (Go strings) modelled as character lists. -/
abbrev Path := List Char

/-- `filepath.IsAbs` on Unix: the path begins with a slash. -/
def IsAbs : Path → Bool
  | '/' :: _ => true
  | _ => false

/-- `filepath.Join` as used by `KeyDirConfig` (path cleaning is omitted; no
claim depends on normalization). -/
def Join (a b : Path) : Path := if a = [] then b else a ++ '/' :: b

/-- File-system environment for the conf helpers: the result of `os.Getwd`
(consulted by `filepath.Abs` on relative paths), the result of
`os.MkdirTemp("", "N42-keystore")`, and the per-path outcome of
`os.MkdirAll`. -/
structure FSEnv where
  getwdResult : Except String Path
  mkdirTempResult : Except String Path
  mkdirAllErr : Path → Option String

/-- `filepath.Abs`: an absolute path is returned as is; a relative path is
joined onto the working directory (cleaning omitted); the call fails when
`os.Getwd` fails. -/
def Abs (env : FSEnv) (p : Path) : Except String Path :=
  if IsAbs p then .ok p
  else
    match env.getwdResult with
    | .error e => .error e
    | .ok cwd => .ok (cwd ++ '/' :: p)

/-- `conf.NodeConfig`, restricted to the two fields the keystore-directory
helpers read; no other field is consulted by `KeyDirConfig` or
`getKeyStoreDir`. -/
structure NodeConfig where
  DataDir : Path
  KeyStoreDir : Path

/-- `datadirDefaultKeyStore`: path within the datadir to the keystore. -/
def datadirDefaultKeyStore : Path := ['k', 'e', 'y', 's', 't', 'o', 'r', 'e']

/-- `(*NodeConfig).KeyDirConfig` determines the settings for the key
directory: an absolute `KeyStoreDir` is used verbatim; with a datadir, an
empty `KeyStoreDir` defaults to the keystore subdirectory and a relative one
is made absolute; a bare relative `KeyStoreDir` is made absolute; otherwise
the empty path is returned with no error. -/
def NodeConfig.KeyDirConfig (c : NodeConfig) (env : FSEnv) : Except String Path :=
  if IsAbs c.KeyStoreDir then .ok c.KeyStoreDir
  else if c.DataDir ≠ [] then
    if c.KeyStoreDir = [] then .ok (Join c.DataDir datadirDefaultKeyStore)
    else Abs env c.KeyStoreDir
  else if c.KeyStoreDir ≠ [] then Abs env c.KeyStoreDir
  else .ok []

/-- `getKeyStoreDir` retrieves the key directory and will create an
ephemeral one if necessary: when the configured directory resolves to the
empty path a fresh temporary directory is created and `isEphemeral` is set;
the directory is then created via `os.MkdirAll`; errors from resolution,
temporary-directory creation, and `MkdirAll` are each returned. -/
def getKeyStoreDir (env : FSEnv) (conf : NodeConfig) : Except String (Path × Bool) :=
  match conf.KeyDirConfig env with
  | .error e => .error e
  | .ok keydir0 =>
    if keydir0 = [] then
      match env.mkdirTempResult with
      | .error e => .error e
      | .ok tmp =>
        match env.mkdirAllErr tmp with
        | some e => .error e
        | none => .ok (tmp, true)
    else
      match env.mkdirAllErr keydir0 with
      | some e => .error e
      | none => .ok (keydir0, false)

/-! ## Helper lemmas about the encoding and the store -/

theorem decodeTail_replicate (b : Nat) :
    decodeTail (List.replicate b 49 ++ [125]) = some b := by
  induction b with
  | zero => rfl
  | succ n ih => simp [List.replicate_succ, decodeTail, ih]

theorem decodeBody_encoding (a b : Nat) :
    decodeBody (List.replicate a 49 ++ 44 :: (List.replicate b 49 ++ [125])) = some (a, b) := by
  induction a with
  | zero => simp [decodeBody, decodeTail_replicate]
  | succ n ih => simp [List.replicate_succ, decodeBody, ih]

theorem jsonUnmarshal_marshalBytes (c : ChainConfig) :
    jsonUnmarshal (marshalBytes c) = .ok c := by
  simp [jsonUnmarshal, marshalBytes, decodeBody_encoding]

theorem marshalBytes_ne_nil (c : ChainConfig) : marshalBytes c ≠ [] := by
  simp [marshalBytes]

theorem readChainConfig_congr (db db' : DB) (h : Hash)
    (hg : db.getErr (ConfigKey h) = db'.getErr (ConfigKey h))
    (ht : db.tbl (ConfigKey h) = db'.tbl (ConfigKey h)) :
    ReadChainConfig db h = ReadChainConfig db' h := by
  unfold ReadChainConfig GetOne
  rw [hg, ht]

theorem writeChainConfig_ok (db : DB) (h : Hash) (c : ChainConfig)
    (hput : db.putErr (ConfigKey h) = none) :
    WriteChainConfig db h (some c) =
      ({ db with tbl := fun k => if k = ConfigKey h then marshalBytes c else db.tbl k },
        none) := by
  simp [WriteChainConfig, jsonMarshal, Put, hput]

theorem readChainConfig_ok (db : DB) (h : Hash) (c : ChainConfig)
    (hget : db.getErr (ConfigKey h) = none)
    (htbl : db.tbl (ConfigKey h) = marshalBytes c) :
    ReadChainConfig db h = (some c, none) := by
  simp [ReadChainConfig, GetOne, hget, htbl, marshalBytes_ne_nil,
    jsonUnmarshal_marshalBytes, List.length_eq_zero]

/-! ## Concrete inputs used by the witnesses -/

def db0 : DB := ⟨fun _ => [], fun _ => none, fun _ => none⟩

def h0 : Hash := ⟨List.replicate 32 0, by simp⟩

def h1 : Hash := ⟨List.replicate 32 1, by simp⟩

def c0 : ChainConfig := ⟨1, 2⟩

def c1 : ChainConfig := ⟨3, 4⟩

/-- A store whose record under `ConfigKey h0` holds corrupt (truncated)
bytes. -/
def dbCorrupt : DB :=
  ⟨fun k => if k = ConfigKey h0 then [123] else [], fun _ => none, fun _ => none⟩

/-- A store whose get and put both fail with an access error. -/
def dbFail : DB :=
  ⟨fun _ => [], fun _ => some "disk read error", fun _ => some "disk write error"⟩

/-! ## Claims -/

/-- C1: for every non-nil ChainConfig `c` and 32-byte genesis hash `h`, if
`WriteChainConfig` succeeds on a store whose get/put behave as a key-value
map, a subsequent `ReadChainConfig` succeeds and returns a config equal to
`c`. -/
theorem chainConfig_write_read_roundtrip (db : DB) (h : Hash) (c : ChainConfig)
    (hput : db.putErr (ConfigKey h) = none) (hget : db.getErr (ConfigKey h) = none) :
    (WriteChainConfig db h (some c)).2 = none ∧
    ReadChainConfig (WriteChainConfig db h (some c)).1 h = (some c, none) := by
  rw [writeChainConfig_ok db h c hput]
  exact ⟨rfl, readChainConfig_ok _ h c hget (by simp)⟩

theorem chainConfig_write_read_roundtrip_witness :
    (WriteChainConfig db0 h0 (some c0)).2 = none ∧
    ReadChainConfig (WriteChainConfig db0 h0 (some c0)).1 h0 = (some c0, none) :=
  chainConfig_write_read_roundtrip db0 h0 c0 rfl rfl

/-- C2: distinct genesis hashes derive distinct storage keys, so a write
under `h1` leaves a subsequent read under `h2` unchanged (on every store,
whether or not the write succeeds). -/
theorem configKey_injective_isolation (hx hy : Hash) (hne : hx ≠ hy)
    (db : DB) (c : ChainConfig) :
    ConfigKey hx ≠ ConfigKey hy ∧
    ReadChainConfig (WriteChainConfig db hx (some c)).1 hy = ReadChainConfig db hy := by
  have hkey : ConfigKey hx ≠ ConfigKey hy := by
    intro he
    exact hne (Subtype.ext (List.append_cancel_left he))
  refine ⟨hkey, ?_⟩
  unfold WriteChainConfig jsonMarshal Put
  cases hp : db.putErr (ConfigKey hx) with
  | some e => rfl
  | none =>
    exact readChainConfig_congr _ db hy rfl
      (if_neg (fun he => hkey he.symm))

theorem configKey_injective_isolation_witness :
    ConfigKey h0 ≠ ConfigKey h1 ∧
    ReadChainConfig (WriteChainConfig db0 h0 (some c0)).1 h1 = ReadChainConfig db0 h1 :=
  configKey_injective_isolation h0 h1 (by decide) db0 c0

/-- C3: writing `c1` then `c2` under the same hash succeeds on a key-value
store, and a subsequent read returns `c2` (last-write-wins). -/
theorem chainConfig_write_overwrite (db : DB) (h : Hash) (ca cb : ChainConfig)
    (hput : db.putErr (ConfigKey h) = none) (hget : db.getErr (ConfigKey h) = none) :
    (WriteChainConfig db h (some ca)).2 = none ∧
    (WriteChainConfig (WriteChainConfig db h (some ca)).1 h (some cb)).2 = none ∧
    ReadChainConfig (WriteChainConfig (WriteChainConfig db h (some ca)).1 h (some cb)).1 h =
      (some cb, none) := by
  have hw2 := writeChainConfig_ok
    { tbl := fun k => if k = ConfigKey h then marshalBytes ca else db.tbl k,
      getErr := db.getErr, putErr := db.putErr } h cb hput
  rw [writeChainConfig_ok db h ca hput]
  dsimp only
  rw [hw2]
  exact ⟨rfl, rfl, readChainConfig_ok _ h cb hget (by simp)⟩

theorem chainConfig_write_overwrite_witness :
    (WriteChainConfig db0 h0 (some c0)).2 = none ∧
    (WriteChainConfig (WriteChainConfig db0 h0 (some c0)).1 h0 (some c1)).2 = none ∧
    ReadChainConfig (WriteChainConfig (WriteChainConfig db0 h0 (some c0)).1 h0 (some c1)).1 h0 =
      (some c1, none) :=
  chainConfig_write_overwrite db0 h0 c0 c1 rfl rfl

/-- C8: writing the same `(h, c)` twice leaves the store in exactly the
state of a single write, and a subsequent read returns `c`. -/
theorem writeChainConfig_idempotent (db : DB) (h : Hash) (c : ChainConfig)
    (hput : db.putErr (ConfigKey h) = none) (hget : db.getErr (ConfigKey h) = none) :
    (WriteChainConfig (WriteChainConfig db h (some c)).1 h (some c)).1 =
      (WriteChainConfig db h (some c)).1 ∧
    ReadChainConfig (WriteChainConfig db h (some c)).1 h = (some c, none) := by
  have hw2 := writeChainConfig_ok
    { tbl := fun k => if k = ConfigKey h then marshalBytes c else db.tbl k,
      getErr := db.getErr, putErr := db.putErr } h c hput
  rw [writeChainConfig_ok db h c hput]
  dsimp only
  rw [hw2]
  refine ⟨?_, readChainConfig_ok _ h c hget (by simp)⟩
  apply DB.ext
  · funext k
    by_cases hk : k = ConfigKey h <;> simp [hk]
  · rfl
  · rfl

theorem writeChainConfig_idempotent_witness :
    (WriteChainConfig (WriteChainConfig db0 h0 (some c0)).1 h0 (some c0)).1 =
      (WriteChainConfig db0 h0 (some c0)).1 ∧
    ReadChainConfig (WriteChainConfig db0 h0 (some c0)).1 h0 = (some c0, none) :=
  writeChainConfig_idempotent db0 h0 c0 rfl rfl

/-- C4: reading a hash whose stored bytes are empty (no record ever
written) yields the empty-record error, a condition distinct from the
store-access error and from the decode error, and no config. -/
theorem readChainConfig_notFound_on_empty (db : DB) (h : Hash)
    (hget : db.getErr (ConfigKey h) = none) (hempty : db.tbl (ConfigKey h) = []) :
    ReadChainConfig db h = (none, some .emptyErr) ∧
    (∀ e, ReadErr.emptyErr ≠ ReadErr.fetchErr e ∧ ReadErr.emptyErr ≠ ReadErr.decodeErr e) := by
  refine ⟨?_, fun e => by simp⟩
  simp [ReadChainConfig, GetOne, hget, hempty]

theorem readChainConfig_notFound_on_empty_witness :
    ReadChainConfig db0 h0 = (none, some .emptyErr) ∧
    (∀ e, ReadErr.emptyErr ≠ ReadErr.fetchErr e ∧ ReadErr.emptyErr ≠ ReadErr.decodeErr e) :=
  readChainConfig_notFound_on_empty db0 h0 rfl rfl

/-- C5: writing a nil config is rejected with the invalid-argument error and
leaves the store unchanged, so a subsequent read on a previously empty store
still yields the empty-record error. -/
theorem writeChainConfig_nil_rejected (db : DB) (h : Hash)
    (hget : db.getErr (ConfigKey h) = none) (hempty : db.tbl (ConfigKey h) = []) :
    WriteChainConfig db h none = (db, some .invalidCfg) ∧
    ReadChainConfig db h = (none, some .emptyErr) := by
  refine ⟨rfl, ?_⟩
  simp [ReadChainConfig, GetOne, hget, hempty]

theorem writeChainConfig_nil_rejected_witness :
    WriteChainConfig db0 h0 none = (db0, some .invalidCfg) ∧
    ReadChainConfig db0 h0 = (none, some .emptyErr) :=
  writeChainConfig_nil_rejected db0 h0 rfl rfl

/-- C6: reading a hash whose stored bytes are non-empty but do not parse
yields the decode error wrapping the parser's error, and no config. -/
theorem readChainConfig_decode_failure (db : DB) (h : Hash) (e : String)
    (hget : db.getErr (ConfigKey h) = none)
    (hne : db.tbl (ConfigKey h) ≠ [])
    (hdec : jsonUnmarshal (db.tbl (ConfigKey h)) = .error e) :
    ReadChainConfig db h = (none, some (.decodeErr e)) := by
  simp [ReadChainConfig, GetOne, hget, hdec, List.length_eq_zero, hne]

theorem readChainConfig_decode_failure_witness :
    ReadChainConfig dbCorrupt h0 = (none, some (.decodeErr "unexpected end of JSON input")) :=
  readChainConfig_decode_failure dbCorrupt h0 "unexpected end of JSON input"
    rfl (by simp [dbCorrupt]) rfl

/-- C7: a store get failure makes the read return exactly the wrapping
fetch error, and a store put failure makes the write return exactly the
propagated put error while leaving the store unchanged. -/
theorem accessor_error_propagation (db : DB) (h : Hash) (c : ChainConfig)
    (eg ep : String)
    (hg : db.getErr (ConfigKey h) = some eg)
    (hp : db.putErr (ConfigKey h) = some ep) :
    ReadChainConfig db h = (none, some (.fetchErr eg)) ∧
    WriteChainConfig db h (some c) = (db, some (.putFailed ep)) := by
  constructor
  · simp [ReadChainConfig, GetOne, hg]
  · simp [WriteChainConfig, jsonMarshal, Put, hp]

theorem accessor_error_propagation_witness :
    ReadChainConfig dbFail h0 = (none, some (.fetchErr "disk read error")) ∧
    WriteChainConfig dbFail h0 (some c0) = (dbFail, some (.putFailed "disk write error")) :=
  accessor_error_propagation dbFail h0 c0 "disk read error" "disk write error" rfl rfl

/-- C9: `ReadChainConfig` returns exactly one of a config or an error
(never both, never neither), and an empty stored value — covering both an
absent key and a found-but-empty record, which the kv get merges — yields
the empty-record error, never a zero-valued config. -/
theorem readChainConfig_exclusive_result (db : DB) (h : Hash) :
    ((∃ cfg, ReadChainConfig db h = (some cfg, none)) ∨
      (∃ e, ReadChainConfig db h = (none, some e))) ∧
    (db.getErr (ConfigKey h) = none → db.tbl (ConfigKey h) = [] →
      ReadChainConfig db h = (none, some .emptyErr)) := by
  constructor
  · unfold ReadChainConfig GetOne
    cases db.getErr (ConfigKey h) with
    | some e => exact Or.inr ⟨.fetchErr e, rfl⟩
    | none =>
      by_cases hl : (db.tbl (ConfigKey h)).length = 0
      · exact Or.inr ⟨.emptyErr, by simp [hl]⟩
      · cases hu : jsonUnmarshal (db.tbl (ConfigKey h)) with
        | error e => exact Or.inr ⟨.decodeErr e, by simp [hl, hu]⟩
        | ok cfg => exact Or.inl ⟨cfg, by simp [hl, hu]⟩
  · intro hget hempty
    simp [ReadChainConfig, GetOne, hget, hempty]

theorem readChainConfig_exclusive_result_witness :
    ((∃ cfg, ReadChainConfig db0 h0 = (some cfg, none)) ∨
      (∃ e, ReadChainConfig db0 h0 = (none, some e))) ∧
    ReadChainConfig db0 h0 = (none, some .emptyErr) :=
  ⟨(readChainConfig_exclusive_result db0 h0).1,
    (readChainConfig_exclusive_result db0 h0).2 rfl rfl⟩

/-! ## Helper lemmas for the keystore-directory helpers -/

theorem isAbs_ne_nil (p : Path) (h : IsAbs p = true) : p ≠ [] := by
  cases p with
  | nil => simp [IsAbs] at h
  | cons a t => simp

theorem abs_ok_ne_nil (env : FSEnv) (p r : Path) (h : Abs env p = .ok r) : r ≠ [] := by
  unfold Abs at h
  by_cases ha : IsAbs p = true
  · rw [if_pos ha] at h
    cases h
    exact isAbs_ne_nil p ha
  · rw [if_neg ha] at h
    cases hg : env.getwdResult with
    | error e => rw [hg] at h; cases h
    | ok cwd =>
      rw [hg] at h
      cases h
      simp

theorem keyDirConfig_empty_iff (env : FSEnv) (c : NodeConfig) (r : Path)
    (h : c.KeyDirConfig env = .ok r) :
    (r = [] ↔ (c.DataDir = [] ∧ c.KeyStoreDir = [])) := by
  unfold NodeConfig.KeyDirConfig at h
  by_cases ha : IsAbs c.KeyStoreDir = true
  · rw [if_pos ha, Except.ok.injEq] at h
    subst h
    simp [isAbs_ne_nil _ ha]
  · rw [if_neg ha] at h
    by_cases hd : c.DataDir ≠ []
    · rw [if_pos hd] at h
      simp only [hd, false_and, iff_false]
      intro hr
      subst hr
      by_cases hks : c.KeyStoreDir = []
      · rw [if_pos hks] at h
        simp [Join, hd] at h
      · rw [if_neg hks] at h
        exact abs_ok_ne_nil env _ _ h rfl
    · push_neg at hd
      rw [if_neg (by simp [hd])] at h
      by_cases hks : c.KeyStoreDir = []
      · rw [if_neg (by simp [hks]), Except.ok.injEq] at h
        subst h
        simp [hd, hks]
      · rw [if_pos hks] at h
        simp only [hd, hks, true_and, iff_false]
        intro hr
        subst hr
        exact abs_ok_ne_nil env _ _ h rfl

/-- C10: `KeyDirConfig` returns an absolute `KeyStoreDir` unchanged with no
error, and a successful `getKeyStoreDir` reports `isEphemeral = true`
exactly when the resolved directory is empty, i.e. when both `DataDir` and
`KeyStoreDir` are empty, in which case the returned directory is the fresh
temporary one. -/
theorem keystore_dir_resolution (env : FSEnv) (cA cB : NodeConfig)
    (dir : Path) (eph : Bool)
    (habs : IsAbs cA.KeyStoreDir = true)
    (hok : getKeyStoreDir env cB = .ok (dir, eph)) :
    cA.KeyDirConfig env = .ok cA.KeyStoreDir ∧
    (eph = true ↔ (cB.DataDir = [] ∧ cB.KeyStoreDir = [])) ∧
    (eph = true → env.mkdirTempResult = .ok dir) := by
  refine ⟨by simp [NodeConfig.KeyDirConfig, habs], ?_⟩
  unfold getKeyStoreDir at hok
  cases hk : cB.KeyDirConfig env with
  | error e => simp only [hk] at hok; exact Except.noConfusion hok
  | ok kd =>
    simp only [hk] at hok
    by_cases hkd : kd = []
    · rw [if_pos hkd] at hok
      cases ht : env.mkdirTempResult with
      | error e => simp only [ht] at hok; exact Except.noConfusion hok
      | ok tmp =>
        simp only [ht] at hok
        cases hma : env.mkdirAllErr tmp with
        | some e => simp only [hma] at hok; exact Except.noConfusion hok
        | none =>
          simp only [hma, Except.ok.injEq, Prod.mk.injEq] at hok
          obtain ⟨rfl, rfl⟩ := hok
          refine ⟨?_, fun _ => rfl⟩
          simp only [true_iff]
          exact (keyDirConfig_empty_iff env cB kd hk).mp hkd
    · rw [if_neg hkd] at hok
      cases hma : env.mkdirAllErr kd with
      | some e => simp only [hma] at hok; exact Except.noConfusion hok
      | none =>
        simp only [hma, Except.ok.injEq, Prod.mk.injEq] at hok
        obtain ⟨rfl, rfl⟩ := hok
        refine ⟨?_, by simp⟩
        simp only [Bool.false_eq_true, false_iff]
        intro hboth
        exact hkd ((keyDirConfig_empty_iff env cB kd hk).mpr hboth)

theorem keystore_dir_resolution_witness :
    NodeConfig.KeyDirConfig ⟨[], ['/', 'k']⟩
        ⟨.ok ['/', 'w'], .ok ['/', 't'], fun _ => none⟩ =
      .ok ['/', 'k'] ∧
    (true = true ↔ (([] : Path) = [] ∧ ([] : Path) = [])) ∧
    (true = true →
      FSEnv.mkdirTempResult ⟨.ok ['/', 'w'], .ok ['/', 't'], fun _ => none⟩ = .ok ['/', 't']) :=
  keystore_dir_resolution ⟨.ok ['/', 'w'], .ok ['/', 't'], fun _ => none⟩
    ⟨[], ['/', 'k']⟩ ⟨[], []⟩ ['/', 't'] true rfl rfl

end N42
